import Mathlib

/-!
# Verification of the CSVReader core (`src/main.cpp`)

Shallow embedding of the `CSVReader` class: its data model
(`headers` / `data`), the row tokenizer `parseRow` (built on
`std::getline(ss, cell, ',')`), the `load` loop, and
`calculateTotalRevenue` (column lookup by `std::find`, per-row
`std::stod` / `std::stoi` parsing inside a `try`/`catch`).

Numeric modelling choices:
* C++ `double` arithmetic is modelled over `Rat`.  Every numeric fact
  proved below involves decimal literals and results exact at the
  printed precision, where double rounding cannot change the
  two-decimal outcome.
* `std::stod` / `std::stoi` are modelled by `stod` / `stoi` below,
  covering decimal forms (optional whitespace, sign, digits, decimal
  point, exponent) with trailing garbage ignored, exactly as `strtod` /
  `strtol` do.  Hex floats, `inf` / `nan` spellings and out-of-range
  behaviour are not modelled; no claim touches them.
* `std::vector::operator[]` is unchecked: an out-of-bounds index is
  undefined behaviour, not an exception.  The model makes each access
  explicit via `List.get?`, and an out-of-bounds access is reported as
  the distinguished outcome `RowOutcome.outOfBounds` (UB marker), which
  poisons the whole aggregate result (`Option.none`).
-/

/-- One tokenization step of `parseRow` (`src/main.cpp:27-37`):
`while (std::getline(ss, cell, ',')) fields.push_back(cell);`.
`std::getline` with delimiter `','` consumes characters up to and
including the next comma (the comma is not stored); it fails — ending
the loop — exactly when the stream is already exhausted.  Hence an
empty input yields no fields, and a line ending in a comma yields no
field after that final comma. -/
def splitCells : List Char → List String
  | [] => []
  | c :: cs =>
    if c = ',' then "" :: splitCells cs
    else
      match splitCells cs with
      | [] => [String.mk [c]]
      | f :: fs => String.mk (c :: f.toList) :: fs

/-- `CSVReader::parseRow` (`src/main.cpp:27`). -/
def parseRow (line : String) : List String :=
  splitCells line.toList

/-- Spec-side splitter: cut on every comma and keep every field,
including a trailing empty one ("n commas give n+1 fields").  Used only
to compare against the behaviour of `splitCells`. -/
def splitAll : List Char → List String
  | [] => [""]
  | c :: cs =>
    if c = ',' then "" :: splitAll cs
    else
      match splitAll cs with
      | [] => [String.mk [c]]
      | f :: fs => String.mk (c :: f.toList) :: fs

/-- The state owned by `CSVReader` (`src/main.cpp:19-20`):
`std::vector<std::vector<std::string>> data;` and
`std::vector<std::string> headers;`. -/
structure CSVReader where
  data : List (List String)
  headers : List String
deriving DecidableEq, Repr

/-- The empty initial state: both vectors default-construct empty. -/
def CSVReader.initial : CSVReader := ⟨[], []⟩

/-- One iteration of the read loop in `CSVReader::load`
(`src/main.cpp:93-107`): skip empty lines, the first non-empty line
becomes `headers`, every later non-empty line is parsed and pushed onto
`data`.  The `Bool` component is the local `is_header` flag. -/
def loadStep : CSVReader × Bool → String → CSVReader × Bool
  | (r, flag), line =>
    if line = "" then (r, flag)
    else if flag then ({ r with headers := parseRow line }, false)
    else ({ r with data := r.data ++ [parseRow line] }, false)

/-- `CSVReader::load` (`src/main.cpp:79-112`).  The source is `none`
when `std::ifstream` fails to open (early `return false`, state
untouched), and `some lines` gives the lines `std::getline` yields.
Note the C++ code never clears `data` or `headers` before the loop.
(The `createMockFile()` call touches only the filesystem, never the
reader's state, so it does not appear in the state model.) -/
def load (r : CSVReader) (source : Option (List String)) : Bool × CSVReader :=
  match source with
  | none => (false, r)
  | some lines => (true, (lines.foldl loadStep (r, true)).1)

/-! ## Numeric parsing (`std::stod`, `std::stoi`) -/

/-- The whitespace `strtod`/`strtol` skip (C locale `isspace`). -/
def isSpaceChar (c : Char) : Bool :=
  c = ' ' ∨ c = '\t' ∨ c = '\n' ∨ c = '\x0b' ∨ c = '\x0c' ∨ c = '\r'

/-- Optional sign; returns `true` when negative. -/
def parseSign : List Char → Bool × List Char
  | '-' :: cs => (true, cs)
  | '+' :: cs => (false, cs)
  | cs => (false, cs)

/-- Value of a digit run, most significant first. -/
def natOfDigits (ds : List Char) : Nat :=
  ds.foldl (fun a c => 10 * a + (c.toNat - '0'.toNat)) 0

/-- Optional exponent part `e`/`E` sign digits; contributes 0 when the
characters after `e` do not form an exponent (`strtod` backs up). -/
def parseExp (cs : List Char) : Int :=
  match cs with
  | c :: rest =>
    if c = 'e' ∨ c = 'E' then
      let (neg, rest1) := parseSign rest
      let (ds, _) := rest1.span Char.isDigit
      if ds = [] then 0
      else if neg then -(natOfDigits ds : Int) else (natOfDigits ds : Int)
    else 0
  | [] => 0

/-- Model of `std::stod` (`src/main.cpp:171`): skip whitespace, optional
sign, digits, optional `.digits`, optional exponent; ignore everything
after; `none` (an `std::invalid_argument` throw) iff no digit occurs
before or right after the decimal point.  The decimal forms are exact
over `Rat`. -/
def stod (s : String) : Option Rat :=
  let cs := s.toList.dropWhile isSpaceChar
  let (neg, cs1) := parseSign cs
  let (intDs, cs2) := cs1.span Char.isDigit
  let (fracDs, cs3) :=
    match cs2 with
    | '.' :: rest => rest.span Char.isDigit
    | _ => ([], cs2)
  if intDs = [] ∧ fracDs = [] then none
  else
    let mant : Rat :=
      (natOfDigits intDs : Rat) + (natOfDigits fracDs : Rat) / ((10 : Rat) ^ fracDs.length)
    let v := mant * (10 : Rat) ^ parseExp cs3
    some (if neg then -v else v)

/-- Model of `std::stoi` (`src/main.cpp:173`): skip whitespace, optional
sign, base-10 digits; ignore everything after; `none`
(`std::invalid_argument`) iff no digit is found. -/
def stoi (s : String) : Option Int :=
  let cs := s.toList.dropWhile isSpaceChar
  let (neg, cs1) := parseSign cs
  let (ds, _) := cs1.span Char.isDigit
  if ds = [] then none
  else if neg then some (-(natOfDigits ds : Int)) else some (natOfDigits ds : Int)

/-- A trailing-garbage suffix that cannot extend a floating-point
number: its first character (when there is one) is no digit, no decimal
point and no exponent marker, so `strtod` stops right before it. -/
def stopsNumericRun : List Char → Bool
  | [] => true
  | c :: _ => !c.isDigit && !(c == '.') && !(c == 'e') && !(c == 'E')

/-- A trailing-garbage suffix that cannot extend a base-10 integer: its
first character (when there is one) is no digit, so `strtol` stops
right before it. -/
def stopsDigitRun : List Char → Bool
  | [] => true
  | c :: _ => !c.isDigit

/-! ## The revenue aggregate (`CSVReader::calculateTotalRevenue`) -/

/-- Outcome of the loop body at one row (`src/main.cpp:168-179`), in the
C++ evaluation order: `row[price_idx]` is read first (unchecked
`operator[]` — out of bounds is undefined behaviour, `outOfBounds`
here), then `std::stod`, then `row[units_idx]`, then `std::stoi`; a
thrown parse error is caught and the row skipped (`parseSkip`). -/
inductive RowOutcome where
  | ok (v : Rat)
  | parseSkip
  | outOfBounds
deriving DecidableEq, Repr

/-- The loop body at one row, following `src/main.cpp:169-178` step by
step. -/
def rowOutcome (pidx uidx : Nat) (row : List String) : RowOutcome :=
  match row[pidx]? with
  | none => .outOfBounds
  | some pc =>
    match stod pc with
    | none => .parseSkip
    | some p =>
      match row[uidx]? with
      | none => .outOfBounds
      | some uc =>
        match stoi uc with
        | none => .parseSkip
        | some u => .ok (p * (u : Rat))

/-- The accumulation loop: `total_revenue += price * units` over the
rows, skipping `parseSkip` rows; any `outOfBounds` row is undefined
behaviour, so the whole total is `none`. -/
def sumRows (pidx uidx : Nat) : List (List String) → Option Rat
  | [] => some 0
  | row :: rest =>
    match rowOutcome pidx uidx row with
    | .outOfBounds => none
    | .parseSkip => sumRows pidx uidx rest
    | .ok v => (sumRows pidx uidx rest).map (fun t => v + t)

/-- What `calculateTotalRevenue` reports: the early `[INFO]` return on
empty data (`src/main.cpp:148-151`), the `[ERROR]` return when
`std::find` misses a column name (`src/main.cpp:156-162`), or the
total (with `none` marking an undefined-behaviour run). -/
inductive AggOutput where
  | noData
  | schemaError
  | result (total : Option Rat)
deriving DecidableEq, Repr

/-- `CSVReader::calculateTotalRevenue` (`src/main.cpp:147-183`).
`List.findIdx?` is `std::find` + `std::distance`: the index of the
first exact match. -/
def calculateTotalRevenue (r : CSVReader) : AggOutput :=
  if r.data = [] then .noData
  else
    match List.findIdx? (fun s => s = "Price") r.headers,
          List.findIdx? (fun s => s = "UnitsSold") r.headers with
    | some pidx, some uidx => .result (sumRows pidx uidx r.data)
    | _, _ => .schemaError

/-- Spec-side value of one row: `some (price * units)` when both cells
exist and parse, `none` otherwise ("the successfully parsed rows"). -/
def parsedRevenue (pidx uidx : Nat) (row : List String) : Option Rat :=
  match row[pidx]?, row[uidx]? with
  | some pc, some uc =>
    match stod pc, stoi uc with
    | some p, some u => some (p * (u : Rat))
    | _, _ => none
  | _, _ => none

/-- The two-decimal fixed formatting of the final line
(`src/main.cpp:182`): `'$' << std::fixed << std::setprecision(2)`.
The printed hundredths are `⌊100 q + 1/2⌋` (written out on `num`/`den`
with flooring division so it computes in the kernel); `printf`-style
output actually rounds the double's binary expansion half-to-even, but
the two agree whenever `100 * q` is an integer, which covers every fact
proved here. -/
def formatRevenue (q : Rat) : String :=
  let x := q * 100 + 1 / 2
  let n : Int := x.num.fdiv (x.den : Int)
  let frac := (n % 100).natAbs
  "$" ++ toString (n / 100) ++ "." ++ (if frac < 10 then "0" else "") ++ toString frac

/-- The five-row demo dataset (`src/main.cpp:56-62`, quoted verbatim in
the spec's aggregate example). -/
def exampleLines : List String :=
  ["ItemID,Category,Price,UnitsSold,Location",
   "101,Electronics,49.99,150,East",
   "102,Books,19.50,300,West",
   "103,Electronics,129.00,80,North",
   "104,Clothing,35.75,220,East",
   "105,Books,15.00,450,South"]

attribute [local semireducible] Rat.mul Rat.add Rat.inv

/-! ## Helper lemmas about the tokenizer -/

theorem splitAll_ne_nil (cs : List Char) : splitAll cs ≠ [] := by
  induction cs with
  | nil => simp [splitAll]
  | cons c t ih =>
    by_cases hc : c = ','
    · subst hc; simp [splitAll]
    · simp only [splitAll, if_neg hc]
      cases h : splitAll t with
      | nil => exact absurd h ih
      | cons f fs => simp

theorem splitCells_comma_notin (l₁ l₂ : List Char) (h : ',' ∉ l₁) :
    splitCells (l₁ ++ ',' :: l₂) = String.mk l₁ :: splitCells l₂ := by
  induction l₁ with
  | nil => simp [splitCells]
  | cons c t ih =>
    have hc : c ≠ ',' := fun hEq => h (hEq ▸ List.mem_cons_self _ _)
    have ht : ',' ∉ t := fun hm => h (List.mem_cons_of_mem _ hm)
    simp only [List.cons_append, splitCells, if_neg hc, List.append_eq, ih ht,
      String.toList]

theorem splitCells_append_comma (cs : List Char) :
    splitCells (cs ++ [',']) = splitAll cs := by
  induction cs with
  | nil => rfl
  | cons c t ih =>
    by_cases hc : c = ','
    · subst hc; simp [splitCells, splitAll, ih]
    · simp only [List.cons_append, splitCells, splitAll, if_neg hc, List.append_eq, ih]

theorem splitAll_append_comma (cs : List Char) :
    splitAll (cs ++ [',']) = splitAll cs ++ [""] := by
  induction cs with
  | nil => rfl
  | cons c t ih =>
    by_cases hc : c = ','
    · subst hc; simp [splitAll, ih]
    · obtain ⟨f, fs, hft⟩ := List.exists_cons_of_ne_nil (splitAll_ne_nil t)
      simp only [List.cons_append, splitAll, if_neg hc, List.append_eq, ih, hft,
        List.cons_append]

theorem splitCells_replicate_comma (k : Nat) :
    splitCells (List.replicate k ',') = List.replicate k "" := by
  induction k with
  | zero => rfl
  | succ n ih => simp [List.replicate_succ, splitCells, ih]

/-! ## Helper lemmas about `load` -/

theorem foldl_loadStep_false (lines : List String) (r : CSVReader) :
    lines.foldl loadStep (r, false) =
      (⟨r.data ++ (lines.filter fun l => l ≠ "").map parseRow, r.headers⟩, false) := by
  induction lines generalizing r with
  | nil => simp
  | cons l t ih =>
    by_cases hl : l = ""
    · subst hl
      rw [List.foldl_cons, show loadStep (r, false) "" = (r, false) from rfl, ih,
        List.filter_cons_of_neg (by simp)]
    · have hstep : loadStep (r, false) l = (⟨r.data ++ [parseRow l], r.headers⟩, false) := by
        simp [loadStep, hl]
      rw [List.foldl_cons, hstep, ih, List.filter_cons_of_pos (by simp [hl]), List.map_cons,
        List.append_assoc, List.singleton_append]

theorem foldl_loadStep_true (lines : List String) (r : CSVReader) :
    (lines.foldl loadStep (r, true)).1 =
      match lines.filter (fun l => l ≠ "") with
      | [] => r
      | h :: t => ⟨r.data ++ t.map parseRow, parseRow h⟩ := by
  induction lines generalizing r with
  | nil => rfl
  | cons l t ih =>
    by_cases hl : l = ""
    · subst hl
      rw [List.foldl_cons, show loadStep (r, true) "" = (r, true) from rfl, ih,
        List.filter_cons_of_neg (by simp)]
    · have hstep : loadStep (r, true) l = (⟨r.data, parseRow l⟩, false) := by
        simp [loadStep, hl]
      rw [List.foldl_cons, hstep, foldl_loadStep_false,
        List.filter_cons_of_pos (by simp [hl])]

theorem load_some (r : CSVReader) (lines : List String) :
    load r (some lines) =
      (true,
        match lines.filter (fun l => l ≠ "") with
        | [] => r
        | h :: t => ⟨r.data ++ t.map parseRow, parseRow h⟩) := by
  simp [load, foldl_loadStep_true]

/-! ## Helper lemma about the column lookup -/

theorem findIdx?_eq_none_of_notin (a : String) (l : List String) (h : a ∉ l) (i : Nat) :
    List.findIdx? (fun s => s = a) l i = none := by
  induction l generalizing i with
  | nil => rfl
  | cons b t ih =>
    have hb : b ≠ a := fun hEq => h (hEq ▸ List.mem_cons_self _ _)
    have ht : a ∉ t := fun hm => h (List.mem_cons_of_mem _ hm)
    rw [List.findIdx?_cons, if_neg (by simp [hb]), ih ht]

/-! ## Helper lemmas about numeric runs with trailing garbage -/

theorem takeWhile_append_all (p : Char → Bool) (ds rest : List Char)
    (hds : ∀ c ∈ ds, p c = true)
    (hrest : ∀ c, rest.head? = some c → p c = false) :
    (ds ++ rest).takeWhile p = ds := by
  induction ds with
  | nil =>
    cases rest with
    | nil => rfl
    | cons c t => simp [List.takeWhile_cons, hrest c rfl]
  | cons d t ih =>
    simp [List.takeWhile_cons, hds d (List.mem_cons_self _ _),
      ih (fun c hc => hds c (List.mem_cons_of_mem _ hc))]

theorem dropWhile_append_all (p : Char → Bool) (ds rest : List Char)
    (hds : ∀ c ∈ ds, p c = true)
    (hrest : ∀ c, rest.head? = some c → p c = false) :
    (ds ++ rest).dropWhile p = rest := by
  induction ds with
  | nil =>
    cases rest with
    | nil => rfl
    | cons c t => simp [List.dropWhile_cons, hrest c rfl]
  | cons d t ih =>
    simp [List.dropWhile_cons, hds d (List.mem_cons_self _ _),
      ih (fun c hc => hds c (List.mem_cons_of_mem _ hc))]

theorem span_append_all (p : Char → Bool) (ds rest : List Char)
    (hds : ∀ c ∈ ds, p c = true)
    (hrest : ∀ c, rest.head? = some c → p c = false) :
    (ds ++ rest).span p = (ds, rest) := by
  rw [List.span_eq_take_drop, takeWhile_append_all p ds rest hds hrest,
    dropWhile_append_all p ds rest hds hrest]

theorem parseSign_of_ne_sign (c : Char) (cs : List Char) (h1 : c ≠ '-') (h2 : c ≠ '+') :
    parseSign (c :: cs) = (false, c :: cs) := by
  unfold parseSign
  split
  · next heq => injection heq with h; exact absurd h h1
  · next heq => injection heq with h; exact absurd h h2
  · rfl

theorem digit_not_space {c : Char} (h : c.isDigit = true) : isSpaceChar c = false := by
  simp only [isSpaceChar, decide_eq_false_iff_not]
  rintro (rfl | rfl | rfl | rfl | rfl | rfl) <;> exact absurd h (by decide)

theorem digit_ne_minus {c : Char} (h : c.isDigit = true) : c ≠ '-' := by
  rintro rfl; exact absurd h (by decide)

theorem digit_ne_plus {c : Char} (h : c.isDigit = true) : c ≠ '+' := by
  rintro rfl; exact absurd h (by decide)

/-- `std::stod` on any cell of shape `digits.digits` + non-extending
garbage: the garbage is ignored and the decimal value of the digit runs
is returned. -/
theorem stod_digit_run_garbage (intDs fracDs g : List Char)
    (hi : ∀ c ∈ intDs, c.isDigit = true) (hf : ∀ c ∈ fracDs, c.isDigit = true)
    (hne : intDs ≠ [] ∨ fracDs ≠ []) (hg : stopsNumericRun g = true) :
    stod (String.mk (intDs ++ '.' :: (fracDs ++ g)))
      = some ((natOfDigits intDs : Rat)
          + (natOfDigits fracDs : Rat) / (10 : Rat) ^ fracDs.length) := by
  have hgd : ∀ c, g.head? = some c → c.isDigit = false := by
    cases g with
    | nil => intro c hc; simp at hc
    | cons a t =>
      intro c hc
      simp only [stopsNumericRun, Bool.and_eq_true, Bool.not_eq_true'] at hg
      simp only [List.head?, Option.some.injEq] at hc
      exact hc ▸ hg.1.1.1
  have h5 : parseExp g = 0 := by
    cases g with
    | nil => rfl
    | cons a t =>
      simp only [stopsNumericRun, Bool.and_eq_true, Bool.not_eq_true', beq_eq_false_iff_ne] at hg
      simp [parseExp, hg.1.2, hg.2]
  have hhead : ∃ c0 rest2, intDs ++ '.' :: (fracDs ++ g) = c0 :: rest2
      ∧ isSpaceChar c0 = false ∧ c0 ≠ '-' ∧ c0 ≠ '+' := by
    cases intDs with
    | nil => exact ⟨'.', fracDs ++ g, rfl, by decide, by decide, by decide⟩
    | cons d t =>
      have hd := hi d (List.mem_cons_self _ _)
      exact ⟨d, t ++ '.' :: (fracDs ++ g), rfl, digit_not_space hd, digit_ne_minus hd,
        digit_ne_plus hd⟩
  obtain ⟨c0, rest2, hLc, hcs, hcm, hcp⟩ := hhead
  have h1 : (intDs ++ '.' :: (fracDs ++ g)).dropWhile isSpaceChar
      = intDs ++ '.' :: (fracDs ++ g) := by
    rw [hLc, List.dropWhile_cons, if_neg (by simp [hcs])]
  have h2 : parseSign (intDs ++ '.' :: (fracDs ++ g))
      = (false, intDs ++ '.' :: (fracDs ++ g)) := by
    rw [hLc]; exact parseSign_of_ne_sign c0 rest2 hcm hcp
  have h3 : (intDs ++ '.' :: (fracDs ++ g)).span Char.isDigit
      = (intDs, '.' :: (fracDs ++ g)) := by
    apply span_append_all _ _ _ hi
    intro c hc
    simp only [List.head?, Option.some.injEq] at hc
    exact hc ▸ (by decide)
  have h4 : (fracDs ++ g).span Char.isDigit = (fracDs, g) :=
    span_append_all _ _ _ hf hgd
  have hcond : ¬(intDs = [] ∧ fracDs = []) := by
    rcases hne with h | h <;> exact fun hc => h (by simp [hc.1, hc.2])
  simp only [stod, String.toList, h1, h2, h3, h4, h5]
  rw [if_neg hcond]
  simp

/-- `std::stoi` on any cell of shape digits + non-extending garbage:
the garbage is ignored and the value of the digit run is returned. -/
theorem stoi_digit_run_garbage (uds g' : List Char)
    (hu : ∀ c ∈ uds, c.isDigit = true) (hund : uds ≠ []) (hg' : stopsDigitRun g' = true) :
    stoi (String.mk (uds ++ g')) = some (natOfDigits uds : Int) := by
  have hgd : ∀ c, g'.head? = some c → c.isDigit = false := by
    cases g' with
    | nil => intro c hc; simp at hc
    | cons a t =>
      intro c hc
      simp only [stopsDigitRun, Bool.not_eq_true'] at hg'
      simp only [List.head?, Option.some.injEq] at hc
      exact hc ▸ hg'
  obtain ⟨d, t, rfl⟩ := List.exists_cons_of_ne_nil hund
  have hd := hu d (List.mem_cons_self _ _)
  have h1 : ((d :: t) ++ g').dropWhile isSpaceChar = (d :: t) ++ g' := by
    rw [List.cons_append, List.dropWhile_cons, if_neg (by simp [digit_not_space hd])]
  have h2 : parseSign ((d :: t) ++ g') = (false, (d :: t) ++ g') := by
    rw [List.cons_append]
    exact parseSign_of_ne_sign d (t ++ g') (digit_ne_minus hd) (digit_ne_plus hd)
  have h3 : ((d :: t) ++ g').span Char.isDigit = (d :: t, g') :=
    span_append_all _ _ _ hu hgd
  simp only [stoi, String.toList, h1, h2, h3]
  rw [if_neg (by simp : ¬(d :: t = []))]
  simp

/-! ## Claims -/

/-- Claim C1 (code bug): the claim says a data row too short for the
`Price` / `UnitsSold` index is skipped with a warning like any parse
failure.  The code instead reaches `row[price_idx]` /
`row[units_idx]` — unchecked `std::vector::operator[]`, undefined
behaviour on an out-of-bounds index, which the `catch` of parse
exceptions does not guard.  On the demo header the column indices are
2 and 3, a one-cell row `["101"]` makes the access out of bounds, and
the aggregate run hits the UB marker instead of a skip. -/
theorem short_row_out_of_bounds_access :
    List.findIdx? (fun s => s = "Price")
        ["ItemID", "Category", "Price", "UnitsSold", "Location"] = some 2
    ∧ List.findIdx? (fun s => s = "UnitsSold")
        ["ItemID", "Category", "Price", "UnitsSold", "Location"] = some 3
    ∧ rowOutcome 2 3 ["101"] = RowOutcome.outOfBounds
    ∧ rowOutcome 2 3 ["101"] ≠ RowOutcome.parseSkip
    ∧ calculateTotalRevenue ⟨[["101"]], ["ItemID", "Category", "Price", "UnitsSold", "Location"]⟩
        = AggOutput.result none := by
  decide

/-- Claim C2 (counterexample): a second successful `load` does not
discard the rows of the first one.  Loading `["H", "1"]` and then
`["K", "2"]` leaves `data = [["1"], ["2"]]` — the row `["1"]` of the
first load survives — instead of the claimed `[["2"]]`. -/
theorem second_load_keeps_prior_rows :
    (load (load CSVReader.initial (some ["H", "1"])).2 (some ["K", "2"])).2
        = ⟨[["1"], ["2"]], ["K"]⟩
    ∧ (load (load CSVReader.initial (some ["H", "1"])).2 (some ["K", "2"])).2.data
        ≠ [["2"]] := by
  decide

/-- Claim C2 (amended): a successful `load` replaces the Header with
the new source's first non-empty line, but it never clears `data`
(`src/main.cpp` has no `data.clear()`): the new source's data rows are
appended after all rows of earlier loads, which remain.  When the new
source has no non-empty line at all, both Header and Table are left
untouched. -/
theorem load_appends_rows_replaces_header (r : CSVReader) (lines : List String) :
    (load r (some lines)).1 = true
    ∧ (load r (some lines)).2.data
        = r.data ++ ((lines.filter fun l => l ≠ "").tail.map parseRow)
    ∧ (load r (some lines)).2.headers
        = ((lines.filter fun l => l ≠ "").head?).elim r.headers parseRow := by
  rw [load_some]
  cases h : lines.filter (fun l => l ≠ "") with
  | nil => simp
  | cons a t => simp

/-- Claim C3: `load` on a source that cannot be opened returns the
failure flag and leaves `data` and `headers` exactly as they were
(`src/main.cpp:83-87`, the early `return false`). -/
theorem load_open_failure_noop (r : CSVReader) : load r none = (false, r) := rfl

/-- Claim C4: `parseRow` cuts at every literal comma, keeps each cell
verbatim (no trimming, no quote handling — the cell before the comma is
exactly the comma-free character run `l₁`), and preserves internal
empty fields: `parseRow "a,b,,d" = ["a", "b", "", "d"]`. -/
theorem parseRow_comma_boundaries (l₁ l₂ : List Char) (h : ',' ∉ l₁) :
    parseRow (String.mk (l₁ ++ ',' :: l₂)) = String.mk l₁ :: parseRow (String.mk l₂)
    ∧ parseRow "a,b,,d" = ["a", "b", "", "d"] :=
  ⟨splitCells_comma_notin l₁ l₂ h, by decide⟩

/-- Witness for C4 at `l₁ = ['a']`, `l₂ = ['b']`. -/
theorem parseRow_comma_boundaries_witness :
    (',' ∉ (['a'] : List Char))
    ∧ (parseRow (String.mk (['a'] ++ ',' :: ['b'])) = String.mk ['a'] :: parseRow (String.mk ['b'])
       ∧ parseRow "a,b,,d" = ["a", "b", "", "d"]) :=
  ⟨by decide, parseRow_comma_boundaries ['a'] ['b'] (by decide)⟩

/-- Claim C5: loading from the empty initial state skips blank lines
for both header detection and row storage: the header is the first
non-empty line, `data` holds exactly the later non-empty lines in
order, and the row count is the number of non-empty lines minus the
header — `N` for a source with a header, any blank lines and `N` data
lines. -/
theorem load_counts_nonempty_lines (lines : List String) :
    (load CSVReader.initial (some lines)).2.data
        = (lines.filter fun l => l ≠ "").tail.map parseRow
    ∧ (load CSVReader.initial (some lines)).2.headers
        = ((lines.filter fun l => l ≠ "").head?).elim [] parseRow
    ∧ (load CSVReader.initial (some lines)).2.data.length
        = (lines.filter fun l => l ≠ "").length - 1 := by
  rw [load_some]
  cases h : lines.filter (fun l => l ≠ "") with
  | nil => simp [CSVReader.initial]
  | cons a t => simp [CSVReader.initial]

/-- Claim C6 (counterexample): the `data.empty()` check
(`src/main.cpp:148`) runs before the column lookup
(`src/main.cpp:156-162`), so a loaded table with a header lacking
`Price` but zero data rows — reachable by loading the one-line source
`["ItemID"]` — reports the no-data notice (tagged `[INFO]`), not the
schema error the claim requires for every loaded table with a bad
header. -/
theorem header_only_table_reports_no_data :
    load CSVReader.initial (some ["ItemID"]) = (true, ⟨[], ["ItemID"]⟩)
    ∧ ("Price" : String) ∉ (["ItemID"] : List String)
    ∧ calculateTotalRevenue ⟨[], ["ItemID"]⟩ = AggOutput.noData
    ∧ calculateTotalRevenue ⟨[], ["ItemID"]⟩ ≠ AggOutput.schemaError := by
  decide

/-- Claim C6 (amended): for every table with at least one data row
whose Header lacks a column named exactly `"Price"` or exactly
`"UnitsSold"`, `calculateTotalRevenue` reports the schema error and
performs no accumulation (the method is `const` in the source, so the
store is untouched, and the error path is a plain early return, not
fatal); a loaded table with zero data rows reports the no-data notice
instead. -/
theorem missing_column_reports_schema_error (r : CSVReader) (hd : r.data ≠ [])
    (h : "Price" ∉ r.headers ∨ "UnitsSold" ∉ r.headers) :
    calculateTotalRevenue r = AggOutput.schemaError := by
  unfold calculateTotalRevenue
  rw [if_neg hd]
  rcases h with h | h
  · rw [findIdx?_eq_none_of_notin _ _ h]
  · rw [findIdx?_eq_none_of_notin _ _ h]
    cases List.findIdx? (fun s => s = "Price") r.headers <;> rfl

/-- Witness for the amended C6 on a one-row table whose header is just
`["ItemID"]`. -/
theorem missing_column_reports_schema_error_witness :
    ((⟨[["101"]], ["ItemID"]⟩ : CSVReader).data ≠ []
      ∧ ("Price" ∉ (⟨[["101"]], ["ItemID"]⟩ : CSVReader).headers
         ∨ "UnitsSold" ∉ (⟨[["101"]], ["ItemID"]⟩ : CSVReader).headers))
    ∧ calculateTotalRevenue ⟨[["101"]], ["ItemID"]⟩ = AggOutput.schemaError :=
  ⟨⟨by decide, Or.inl (by decide)⟩,
   missing_column_reports_schema_error _ (by decide) (Or.inl (by decide))⟩

/-- Claim C7: over rows that actually have both the `Price` and the
`UnitsSold` cell, the accumulation loop skips exactly the rows whose
cell fails numeric parsing and the final total is the sum of
`price * units` over the successfully parsed rows only — a bad row
neither aborts the loop nor changes the contribution of the good
rows. -/
theorem revenue_skips_unparsable_rows (pidx uidx : Nat) (rows : List (List String))
    (hb : ∀ row ∈ rows, pidx < row.length ∧ uidx < row.length) :
    sumRows pidx uidx rows = some ((rows.filterMap (parsedRevenue pidx uidx)).sum) := by
  induction rows with
  | nil => simp [sumRows]
  | cons row rest ih =>
    obtain ⟨hp, hu⟩ := hb row (List.mem_cons_self _ _)
    have hrest : ∀ q ∈ rest, pidx < q.length ∧ uidx < q.length :=
      fun q hq => hb q (List.mem_cons_of_mem _ hq)
    have hpc : row[pidx]? = some row[pidx] := List.getElem?_eq_getElem hp
    have huc : row[uidx]? = some row[uidx] := List.getElem?_eq_getElem hu
    cases hsd : stod row[pidx] with
    | none =>
      have hro : rowOutcome pidx uidx row = RowOutcome.parseSkip := by
        simp [rowOutcome, hpc, hsd]
      have hpr : parsedRevenue pidx uidx row = none := by
        simp [parsedRevenue, hpc, huc, hsd]
      simp [sumRows, hro, List.filterMap_cons, hpr, ih hrest]
    | some p =>
      cases hsi : stoi row[uidx] with
      | none =>
        have hro : rowOutcome pidx uidx row = RowOutcome.parseSkip := by
          simp [rowOutcome, hpc, hsd, huc, hsi]
        have hpr : parsedRevenue pidx uidx row = none := by
          simp [parsedRevenue, hpc, huc, hsd, hsi]
        simp [sumRows, hro, List.filterMap_cons, hpr, ih hrest]
      | some u =>
        have hro : rowOutcome pidx uidx row = RowOutcome.ok (p * (u : Rat)) := by
          simp [rowOutcome, hpc, hsd, huc, hsi]
        have hpr : parsedRevenue pidx uidx row = some (p * (u : Rat)) := by
          simp [parsedRevenue, hpc, huc, hsd, hsi]
        simp [sumRows, hro, List.filterMap_cons, hpr, ih hrest]

/-- Witness for C7: two two-cell rows, the second with a non-numeric
price; the total is the revenue of the first row alone. -/
theorem revenue_skips_unparsable_rows_witness :
    (∀ row ∈ [["49.99", "150"], ["abc", "2"]], 0 < row.length ∧ 1 < row.length)
    ∧ sumRows 0 1 [["49.99", "150"], ["abc", "2"]]
        = some (([["49.99", "150"], ["abc", "2"]].filterMap (parsedRevenue 0 1)).sum) :=
  ⟨by decide, revenue_skips_unparsable_rows 0 1 _ (by decide)⟩

/-- Claim C8: on the five-row demo dataset the aggregate totals
`sum(price * units) = 38283.50` (`= 76567/2` exactly, the double error
being far below the printed precision) and the report line renders it
as `$38283.50` — two decimal places behind the currency symbol. -/
theorem demo_dataset_total_revenue :
    calculateTotalRevenue (load CSVReader.initial (some exampleLines)).2
        = AggOutput.result (some ((76567 : Rat) / 2))
    ∧ (76567 : Rat) / 2 = 38283 + 50 / 100
    ∧ formatRevenue ((76567 : Rat) / 2) = "$38283.50" := by
  refine ⟨by decide, by norm_num, by decide⟩

/-- Claim C10: `std::stod` / `std::stoi` convert the longest numeric
run and ignore the trailing non-numeric garbage, universally: for every
price cell `intDs.fracDs` + garbage (arbitrary digit runs, not both
empty; garbage whose first character cannot extend the number) and
every units cell digits + garbage, the cells parse to the decimal value
of their numeric run, and any row carrying two such cells gets outcome
`ok (price * units)` in the aggregate loop — included in the total, not
treated as a parse failure and skipped.  Concretely (the spec's
instances), the cells `"49.99abc"`/`"150x"` make their row contribute
`49.99 * 150 = 7498.50`. -/
theorem numeric_run_with_trailing_garbage_accepted
    (intDs fracDs g uds g' : List Char)
    (hi : ∀ c ∈ intDs, c.isDigit = true)
    (hf : ∀ c ∈ fracDs, c.isDigit = true)
    (hne : intDs ≠ [] ∨ fracDs ≠ [])
    (hg : stopsNumericRun g = true)
    (hu : ∀ c ∈ uds, c.isDigit = true)
    (hund : uds ≠ [])
    (hg' : stopsDigitRun g' = true) :
    stod (String.mk (intDs ++ '.' :: (fracDs ++ g)))
        = some ((natOfDigits intDs : Rat) + (natOfDigits fracDs : Rat) / (10 : Rat) ^ fracDs.length)
    ∧ stoi (String.mk (uds ++ g')) = some (natOfDigits uds : Int)
    ∧ (∀ (pidx uidx : Nat) (row : List String),
        row[pidx]? = some (String.mk (intDs ++ '.' :: (fracDs ++ g))) →
        row[uidx]? = some (String.mk (uds ++ g')) →
        rowOutcome pidx uidx row
          = RowOutcome.ok
              (((natOfDigits intDs : Rat) + (natOfDigits fracDs : Rat) / (10 : Rat) ^ fracDs.length)
                * (natOfDigits uds : Rat)))
    ∧ calculateTotalRevenue
        ⟨[["101", "Electronics", "49.99abc", "150x", "East"]],
         ["ItemID", "Category", "Price", "UnitsSold", "Location"]⟩
        = AggOutput.result (some ((14997 : Rat) / 2)) := by
  have hstod := stod_digit_run_garbage intDs fracDs g hi hf hne hg
  have hstoi := stoi_digit_run_garbage uds g' hu hund hg'
  refine ⟨hstod, hstoi, ?_, by decide⟩
  intro pidx uidx row hrp hru
  simp only [rowOutcome, hrp, hru, hstod, hstoi, Int.cast_natCast]

/-- Witness for C10 at the spec's own cells: `intDs.fracDs` + garbage
= `"49.99abc"` and digits + garbage = `"150x"`, sitting at the Price
and UnitsSold indices of the demo header. -/
theorem numeric_run_with_trailing_garbage_accepted_witness :
    ((∀ c ∈ (['4', '9'] : List Char), c.isDigit = true)
      ∧ (∀ c ∈ (['9', '9'] : List Char), c.isDigit = true)
      ∧ ((['4', '9'] : List Char) ≠ [] ∨ (['9', '9'] : List Char) ≠ [])
      ∧ stopsNumericRun ['a', 'b', 'c'] = true
      ∧ (∀ c ∈ (['1', '5', '0'] : List Char), c.isDigit = true)
      ∧ (['1', '5', '0'] : List Char) ≠ []
      ∧ stopsDigitRun ['x'] = true)
    ∧ (stod (String.mk (['4', '9'] ++ '.' :: (['9', '9'] ++ ['a', 'b', 'c'])))
        = some ((natOfDigits ['4', '9'] : Rat)
            + (natOfDigits ['9', '9'] : Rat) / (10 : Rat) ^ (['9', '9'] : List Char).length)
      ∧ stoi (String.mk (['1', '5', '0'] ++ ['x'])) = some (natOfDigits ['1', '5', '0'] : Int)
      ∧ (∀ (pidx uidx : Nat) (row : List String),
          row[pidx]? = some (String.mk (['4', '9'] ++ '.' :: (['9', '9'] ++ ['a', 'b', 'c']))) →
          row[uidx]? = some (String.mk (['1', '5', '0'] ++ ['x'])) →
          rowOutcome pidx uidx row
            = RowOutcome.ok
                (((natOfDigits ['4', '9'] : Rat)
                    + (natOfDigits ['9', '9'] : Rat) / (10 : Rat) ^ (['9', '9'] : List Char).length)
                  * (natOfDigits ['1', '5', '0'] : Rat)))
      ∧ calculateTotalRevenue
          ⟨[["101", "Electronics", "49.99abc", "150x", "East"]],
           ["ItemID", "Category", "Price", "UnitsSold", "Location"]⟩
          = AggOutput.result (some ((14997 : Rat) / 2))) :=
  ⟨⟨by decide, by decide, Or.inl (by decide), by decide, by decide, by decide, by decide⟩,
   numeric_run_with_trailing_garbage_accepted ['4', '9'] ['9', '9'] ['a', 'b', 'c']
     ['1', '5', '0'] ['x'] (by decide) (by decide) (Or.inl (by decide)) (by decide)
     (by decide) (by decide) (by decide)⟩

/-- Claim C9: a line ending in the delimiter loses its final empty
field: `parseRow "a," = ["a"]`; in general the all-fields split of a
comma-terminated line is `parseRow`'s output plus one more empty
field, and a line of `k` commas gives `k` fields (all empty), not
`k + 1`. -/
theorem parseRow_drops_trailing_empty_field :
    parseRow "a," = ["a"]
    ∧ (∀ cs : List Char, splitAll (cs ++ [',']) = splitCells (cs ++ [',']) ++ [""])
    ∧ (∀ k : Nat, splitCells (List.replicate k ',') = List.replicate k "") := by
  refine ⟨by decide, fun cs => ?_, splitCells_replicate_comma⟩
  rw [splitAll_append_comma, splitCells_append_comma]
